import Mathlib

/-!
Verification model of the heimdalr/gtfs repository (Go).

Go strings are modelled as `List Char`; Go `int` / `int64` as `Int` with
explicit two's-complement wrapping where overflow can occur; fallible Go
functions return `Option` / `Except`.  Wall-clock durations carried by the
Go result structs are not modelled (they carry no logical content).
-/

namespace Gtfs

/-! ## TimeCodec: the `DateTime` CSV codec (`DateTime.MarshalCSV` / `DateTime.UnmarshalCSV`) -/

/-- Largest 32-bit signed integer (`math.MaxInt32`). -/
def maxI32 : Int := 2147483647

/-- Largest 64-bit signed integer (`math.MaxInt64`, the range limit of `strconv.Atoi`
on a 64-bit platform). -/
def maxI64 : Int := 9223372036854775807

/-- Two's-complement wrapping of an integer into 64 bits, the semantics of Go `int`
arithmetic (Go defines signed overflow as wrapping). -/
def wrap64 (n : Int) : Int :=
  (n + 9223372036854775808) % 18446744073709551616 - 9223372036854775808

/-- Two's-complement truncation to 32 bits, the semantics of Go's `int32(i)` conversion. -/
def wrap32 (n : Int) : Int :=
  (n + 2147483648) % 4294967296 - 2147483648

/-- Decimal digit value of a character, `none` if it is not an ASCII digit
(codes 48–57, i.e. `'0' ≤ c ∧ c ≤ '9'`). -/
def digit? (c : Char) : Option Nat :=
  if 48 ≤ c.toNat ∧ c.toNat ≤ 57 then some (c.toNat - 48) else none

/-- Left-to-right accumulation of a decimal digit string (the digit loop inside
`strconv.Atoi`); fails on the first non-digit character. -/
def parseDigAux : List Char → Nat → Option Nat
  | [], acc => some acc
  | c :: cs, acc =>
    match digit? c with
    | some d => parseDigAux cs (acc * 10 + d)
    | none => none

/-- All-digits decimal parse; the empty string is a syntax error (as in `strconv.Atoi`). -/
def parseDigits (l : List Char) : Option Nat :=
  if l.isEmpty then none else parseDigAux l 0

/-- Model of Go `strconv.Atoi` on a 64-bit platform: optional sign, then a non-empty
run of decimal digits, with an `ErrRange` failure (modelled as `none`) when the value
does not fit a signed 64-bit integer.  `none` covers both syntax and range errors,
since `DateTime.UnmarshalCSV` only tests the error for non-nilness. -/
def Atoi (s : List Char) : Option Int :=
  match s with
  | [] => none
  | c :: rest =>
    if c = '+' then
      (parseDigits rest).bind fun n =>
        if (n : Int) ≤ maxI64 then some (n : Int) else none
    else if c = '-' then
      (parseDigits rest).bind fun n =>
        if (n : Int) ≤ 9223372036854775808 then some (-(n : Int)) else none
    else
      (parseDigits (c :: rest)).bind fun n =>
        if (n : Int) ≤ maxI64 then some (n : Int) else none

/-- Model of Go `strings.Split(s, sep)` for a one-character separator. -/
def splitOnChar (sep : Char) : List Char → List (List Char)
  | [] => [[]]
  | c :: rest =>
    if c = sep then [] :: splitOnChar sep rest
    else
      match splitOnChar sep rest with
      | h :: t => (c :: h) :: t
      | [] => [[c]]

/-- Error cases of `DateTime.UnmarshalCSV`: wrong field count, one of the three
fields not parsing as an integer, or the 32-bit range check firing. -/
inductive TimeErr where
  | format
  | parseHours
  | parseMinutes
  | parseSeconds
  | range
deriving DecidableEq, Repr

/-- Model of `DateTime.UnmarshalCSV`: split on `:`, require exactly three fields,
`Atoi` each field, form `hours*3600 + minutes*60 + seconds` in wrapping 64-bit Go
`int` arithmetic, reject results above `math.MaxInt32`, and store the `int32`
truncation of the result. -/
def UnmarshalCSV (csv : List Char) : Except TimeErr Int :=
  match splitOnChar ':' csv with
  | [hs, ms, ss] =>
    match Atoi hs with
    | none => .error .parseHours
    | some hours =>
      match Atoi ms with
      | none => .error .parseMinutes
      | some minutes =>
        match Atoi ss with
        | none => .error .parseSeconds
        | some seconds =>
          let i := wrap64 (wrap64 (wrap64 (hours * 3600) + wrap64 (minutes * 60)) + seconds)
          if maxI32 < i then .error .range else .ok (wrap32 i)
  | _ => .error .format

/-- Decimal digits of a natural number, most significant first, prepended to `acc`
(the digit-emission loop behind Go's `%d` formatting). -/
def natDecAux : Nat → List Char → List Char
  | 0, acc => acc
  | n + 1, acc => natDecAux ((n + 1) / 10) (Char.ofNat (48 + (n + 1) % 10) :: acc)
decreasing_by exact Nat.div_lt_self (Nat.succ_pos n) (by omega)

/-- Decimal rendering of a natural number (`"0"` for zero). -/
def natDec (n : Nat) : List Char :=
  if n = 0 then ['0'] else natDecAux n []

/-- Decimal rendering of an integer, with a leading `-` for negative values. -/
def intDec (n : Int) : List Char :=
  if n < 0 then '-' :: natDec (-n).toNat else natDec n.toNat

/-- Go's `%02d` formatting: pad to width two with zeros; the sign counts toward
the width, so only the single digits 0–9 actually receive a pad character. -/
def format02 (n : Int) : List Char :=
  if 0 ≤ n ∧ n ≤ 9 then '0' :: natDec n.toNat else intDec n

/-- Model of `DateTime.MarshalCSV`: truncated `int32` division/remainder by 3600
and 60, each field rendered with `%02d`; the Go method always returns a nil error,
modelled as the `none` component. -/
def MarshalCSV (dt : Int) : List Char × Option String :=
  let hours := Int.tdiv dt 3600
  let minutes := Int.tdiv (Int.tmod dt 3600) 60
  let seconds := Int.tmod (Int.tmod dt 3600) 60
  (format02 hours ++ (':' :: (format02 minutes ++ (':' :: format02 seconds))), none)

/-! ## Entity models (the eight GTFS record types)

Scalar columns are kept; the gorm association fields (`Route.Agency`,
`Trip.Route`, `StopTime.Stop`, `StopTime.Trip`) are navigation properties, not
columns of the owning table, and are omitted.  Go `float64` coordinate columns
are carried as exact rationals: Trim never computes with them, it only moves
rows around, so only row identity matters. -/

/-- `Agency` model (`agency.txt`). -/
structure Agency where
  ID : String
  Name : String
  URL : String
deriving DecidableEq, Repr

/-- `Route` model (`routes.txt`); `RouteType` is the `route_type` column. -/
structure Route where
  ID : String
  AgencyID : String
  ShortName : String
  LongName : String
  RouteType : Int
deriving DecidableEq, Repr

/-- `Trip` model (`trips.txt`). -/
structure Trip where
  ID : String
  Name : String
  RouteID : String
  ServiceID : String
  DirectionID : String
  ShapeID : String
deriving DecidableEq, Repr

/-- `StopTime` model (`stop_times.txt`); `ID` is the auto-increment surrogate key,
`Departure`/`Arrival` hold the decoded `DateTime` seconds value. -/
structure StopTime where
  ID : Nat
  StopID : String
  TripID : String
  Departure : Int
  Arrival : Int
  StopSeq : Int
deriving DecidableEq, Repr

/-- `Stop` model (`stops.txt`). -/
structure Stop where
  ID : String
  Name : String
  Latitude : Rat
  Longitude : Rat
deriving DecidableEq, Repr

/-- `Shape` model (`shapes.txt`); `ShapeID` is a non-unique grouping key. -/
structure Shape where
  ID : Nat
  ShapeID : String
  PtLat : Rat
  PtLon : Rat
  PtSequence : Int
deriving DecidableEq, Repr

/-- `Calendar` model (`calendar.txt`). -/
structure Calendar where
  ID : Nat
  ServiceID : String
  Monday : Int
  Tuesday : Int
  Wednesday : Int
  Thursday : Int
  Friday : Int
  Saturday : Int
  Sunday : Int
  StartDate : String
  EndDate : String
deriving DecidableEq, Repr

/-- `CalendarDate` model (`calendar_dates.txt`). -/
structure CalendarDate where
  ID : Nat
  ServiceID : String
  Date : String
  ExceptionType : Int
deriving DecidableEq, Repr

/-- `ItemType` enumerates the eight entity kinds, in the declaration order of the
Go `iota` constants. -/
inductive ItemType where
  | Agencies
  | Routes
  | Trips
  | Stops
  | StopTimes
  | Shapes
  | Calendars
  | CalendarDates
deriving DecidableEq, Repr

/-! ## BatchInserter (the `batchImport*` goroutines)

The eight Go `batchImport*` functions are copies of one loop at eight entity
types; they are embedded once, parametrically in the record type, and
instantiated per kind.  The store connection is modelled as the list of batches
committed so far to the kind's table, and `db.Create`'s possible write failure
as an oracle mapping the index of a write attempt to `some error` or `none`. -/

/-- The fixed batch size (`batchSize = 1000`). -/
def batchSize : Nat := 1000

/-- Write-failure oracle: for each write-attempt index (0-based, counted in
committed batches), whether `db.Create` fails and with which error. -/
def WriteOracle : Type := Nat → Option String

/-- The all-writes-succeed oracle. -/
def noFail : WriteOracle := fun _ => none

/-- Result struct `ImportItemsResult` (the `Time` duration field is not modelled). -/
structure ImportItemsResult where
  itemType : ItemType
  count : Nat
  batches : Nat
  error : Option String
deriving DecidableEq, Repr

/-- Model of `db.Create(batch)`: either the write fails (per the oracle, keyed by
how many batches this table already holds) and the table is unchanged, or the whole
batch is appended atomically. -/
def dbCreate {α : Type} (fails : WriteOracle) (tbl : List (List α)) (batch : List α) :
    Except String (List (List α)) :=
  match fails tbl.length with
  | some e => .error e
  | none => .ok (tbl ++ [batch])

/-- The `batchImport*` loop: consume the channel's items in order, buffer them,
write a full batch whenever the buffer reaches `batchSize`, stop with an
error-only result on a failed write (further input is discarded), and flush a
non-empty trailing buffer after the channel closes.  On a write error the Go code
sends `ImportItemsResult{ItemType: ..., Error: err}`, whose `Count`/`Batches`
are the zero values. -/
def batchIns {α : Type} (it : ItemType) (fails : WriteOracle) :
    List α → List (List α) → Nat → Nat → List α → ImportItemsResult × List (List α)
  | [], tbl, cnt, bc, buf =>
    if buf.length > 0 then
      match dbCreate fails tbl buf with
      | .error e => (⟨it, 0, 0, some e⟩, tbl)
      | .ok tbl' => (⟨it, cnt, bc + 1, none⟩, tbl')
    else (⟨it, cnt, bc, none⟩, tbl)
  | x :: rest, tbl, cnt, bc, buf =>
    let buf' := buf ++ [x]
    if buf'.length = batchSize then
      match dbCreate fails tbl buf' with
      | .error e => (⟨it, 0, 0, some e⟩, tbl)
      | .ok tbl' => batchIns it fails rest tbl' (cnt + 1) (bc + 1) []
    else batchIns it fails rest tbl (cnt + 1) bc buf'

/-- `batchImportAgencies`, wired to an initially empty buffer and zeroed counters,
starting from the given table state. -/
def batchImportAgencies (fails : WriteOracle) (items : List Agency) :
    ImportItemsResult × List (List Agency) :=
  batchIns .Agencies fails items [] 0 0 []

/-! ## ImportOrchestrator (`Import` / `importItems`)

A source file is modelled as `Except String (List α)`: either `os.Open` fails
with an error, or the file decodes to a list of typed records.  (Decode errors
inside `gocsv.UnmarshalToChan` are not exercised by any claim; sources here are
the already-decoded record streams.)  The progress channel is modelled by the
returned result list: the channel carries exactly these results in this order
and is then closed. -/

/-- One table per entity kind, each a list of committed batches. -/
structure ImportDB where
  agencies : List (List Agency)
  routes : List (List Route)
  trips : List (List Trip)
  stops : List (List Stop)
  stop_times : List (List StopTime)
  shapes : List (List Shape)
  calendars : List (List Calendar)
  calendar_dates : List (List CalendarDate)
deriving DecidableEq, Repr

/-- The empty (freshly migrated) store. -/
def emptyDB : ImportDB := ⟨[], [], [], [], [], [], [], []⟩

/-- The import environment: per-kind source file (open error or decoded records)
and the per-kind write-failure oracle of the store connection. -/
structure ImportEnv where
  agencyFile : Except String (List Agency)
  routeFile : Except String (List Route)
  tripFile : Except String (List Trip)
  stopFile : Except String (List Stop)
  stopTimeFile : Except String (List StopTime)
  shapeFile : Except String (List Shape)
  calendarFile : Except String (List Calendar)
  calendarDateFile : Except String (List CalendarDate)
  fails : ItemType → WriteOracle

/-- Model of `importItems`: a failed `os.Open` is reported as a result holding
only the error — note the Go struct literal `ImportItemsResult{Error: err}`
leaves `ItemType` at its zero value `Agencies` — and nothing is processed;
otherwise the decoded records are streamed to the kind's batch inserter. -/
def importItems {α : Type} (src : Except String (List α)) (it : ItemType)
    (fails : WriteOracle) (tbl : List (List α)) : ImportItemsResult × List (List α) :=
  match src with
  | .error e => (⟨.Agencies, 0, 0, some e⟩, tbl)
  | .ok items => batchIns it fails items tbl 0 0 []

/-- Model of `Import`: the eight kinds strictly in the fixed order Agency, Route,
Trip, Stop, StopTime, Shape, Calendar, CalendarDate; one result per kind is sent
on the progress channel (the returned list, in order), which is closed after the
last kind. -/
def Import (env : ImportEnv) (db : ImportDB) : List ImportItemsResult × ImportDB :=
  let p1 := importItems env.agencyFile .Agencies (env.fails .Agencies) db.agencies
  let p2 := importItems env.routeFile .Routes (env.fails .Routes) db.routes
  let p3 := importItems env.tripFile .Trips (env.fails .Trips) db.trips
  let p4 := importItems env.stopFile .Stops (env.fails .Stops) db.stops
  let p5 := importItems env.stopTimeFile .StopTimes (env.fails .StopTimes) db.stop_times
  let p6 := importItems env.shapeFile .Shapes (env.fails .Shapes) db.shapes
  let p7 := importItems env.calendarFile .Calendars (env.fails .Calendars) db.calendars
  let p8 := importItems env.calendarDateFile .CalendarDates (env.fails .CalendarDates) db.calendar_dates
  ([p1.1, p2.1, p3.1, p4.1, p5.1, p6.1, p7.1, p8.1],
   ⟨p1.2, p2.2, p3.2, p4.2, p5.2, p6.2, p7.2, p8.2⟩)

/-- The kind processed at each position of the fixed import order. -/
def kindAt : Fin 8 → ItemType
  | 0 => .Agencies
  | 1 => .Routes
  | 2 => .Trips
  | 3 => .Stops
  | 4 => .StopTimes
  | 5 => .Shapes
  | 6 => .Calendars
  | 7 => .CalendarDates

/-- The open error (if any) of the source file at a given position of the import order. -/
def fileOpenErr (env : ImportEnv) : Fin 8 → Option String
  | 0 => match env.agencyFile with | .error e => some e | .ok _ => none
  | 1 => match env.routeFile with | .error e => some e | .ok _ => none
  | 2 => match env.tripFile with | .error e => some e | .ok _ => none
  | 3 => match env.stopFile with | .error e => some e | .ok _ => none
  | 4 => match env.stopTimeFile with | .error e => some e | .ok _ => none
  | 5 => match env.shapeFile with | .error e => some e | .ok _ => none
  | 6 => match env.calendarFile with | .error e => some e | .ok _ => none
  | 7 => match env.calendarDateFile with | .error e => some e | .ok _ => none

/-- Number of records in the source file at a given position (0 if it does not open). -/
def fileCount (env : ImportEnv) : Fin 8 → Nat
  | 0 => match env.agencyFile with | .error _ => 0 | .ok l => l.length
  | 1 => match env.routeFile with | .error _ => 0 | .ok l => l.length
  | 2 => match env.tripFile with | .error _ => 0 | .ok l => l.length
  | 3 => match env.stopFile with | .error _ => 0 | .ok l => l.length
  | 4 => match env.stopTimeFile with | .error _ => 0 | .ok l => l.length
  | 5 => match env.shapeFile with | .error _ => 0 | .ok l => l.length
  | 6 => match env.calendarFile with | .error _ => 0 | .ok l => l.length
  | 7 => match env.calendarDateFile with | .error _ => 0 | .ok l => l.length

/-- Total number of rows persisted in the table at a given position of the import order. -/
def tableRows (db : ImportDB) : Fin 8 → Nat
  | 0 => db.agencies.flatten.length
  | 1 => db.routes.flatten.length
  | 2 => db.trips.flatten.length
  | 3 => db.stops.flatten.length
  | 4 => db.stop_times.flatten.length
  | 5 => db.shapes.flatten.length
  | 6 => db.calendars.flatten.length
  | 7 => db.calendar_dates.flatten.length

/-! ## TrimEngine (`Trim` in `trim.go`)

The populated store is a record of row lists plus the set of existing table
names (the part of the gorm `Migrator` the code consults).  The repository's
store is SQLite (`gorm.io/driver/sqlite`), so `name LIKE '%frag%'` matches with
SQLite's LIKE semantics: `%`/`_` wildcards and ASCII case-insensitivity; and
gorm's `First` orders by the primary key `id` before taking the first row. -/

/-- ASCII lower-casing, the case folding SQLite's default LIKE applies. -/
def lowerA (c : Char) : Char :=
  if 'A' ≤ c ∧ c ≤ 'Z' then Char.ofNat (c.toNat + 32) else c

/-- Try a matcher on every suffix of the text: the search a `%` wildcard performs. -/
def likeStar (m : List Char → Bool) : List Char → Bool
  | [] => m []
  | c :: t => m (c :: t) || likeStar m t

/-- Matcher of an SQLite LIKE pattern against a text: `%` matches any sequence,
`_` any single character, and other characters match ASCII-case-insensitively. -/
def likeM : List Char → List Char → Bool
  | [], t => t.isEmpty
  | a :: p, t =>
    if a = '%' then likeStar (likeM p) t
    else
      match t with
      | [] => false
      | c :: t' => if a = '_' then likeM p t' else lowerA a == lowerA c && likeM p t'

/-- The agency-resolution filter `name LIKE '%<like>%'` built by
`fmt.Sprintf("%%%s%%", like)`. -/
def likeMatch (name frag : String) : Bool :=
  likeM ('%' :: (frag.toList ++ ['%'])) name.toList

/-- Lexicographic less-or-equal on character lists: SQLite's ordering of the
text primary key (byte order; identical to char order on the ASCII ids used here). -/
def strLeB : List Char → List Char → Bool
  | [], _ => true
  | _ :: _, [] => false
  | a :: as, b :: bs => if a = b then strLeB as bs else decide (a < b)

/-- Ordered insertion by the `id` primary key. -/
def insertByID (a : Agency) : List Agency → List Agency
  | [] => [a]
  | b :: rest => if strLeB a.ID.data b.ID.data then a :: b :: rest else b :: insertByID a rest

/-- Sort agencies by primary key, modelling gorm `First`'s `ORDER BY id`. -/
def sortByID (l : List Agency) : List Agency :=
  l.foldr insertByID []

/-- The store the TrimEngine operates on: the eight tables, plus the table names
known to the schema. -/
structure Store where
  tables : List String
  agencies : List Agency
  routes : List Route
  trips : List Trip
  stop_times : List StopTime
  stops : List Stop
  shapes : List Shape
  calendars : List Calendar
  calendar_dates : List CalendarDate
deriving DecidableEq, Repr

/-- Trim's error cases: a required table missing from the schema, or no agency
name matching the fragment (gorm's `ErrRecordNotFound`). -/
inductive TrimErr where
  | missingTable (name : String)
  | recordNotFound
deriving DecidableEq, Repr

/-- Per-step result struct `TrimItemsResult` (the `Time` field is not modelled). -/
structure TrimItemsResult where
  itemType : ItemType
  affected : Nat
  remaining : Nat
deriving DecidableEq, Repr

/-- The table names required by `Trim`, in the order the Go slice checks them. -/
def requiredTables : List String :=
  ["agencies", "routes", "trips", "stop_times", "stops", "shapes", "calendars", "calendar_dates"]

/-- Model of `Trim`: check the eight required tables, resolve the first agency
(by primary-key order) whose name LIKE-matches `'%like%'`, then run the six
delete statements strictly in the order agencies, routes, trips, stop_times,
stops, shapes, each step reading the state the previous steps left:

  * `delAgencyStmt`: delete agencies whose `id` differs from the resolved one;
  * `delRoutesStmt`: delete routes whose `agency_id` is not among remaining agency ids;
  * `delTripsStmt`: delete trips whose `route_id` is not among remaining route ids;
  * `delStopTimesStmt`: delete stop_times whose `trip_id` is not among remaining trip ids;
  * `delStopsStmt`: delete stops whose `id` is not referenced by a remaining stop_time;
  * `delShapesStmt`: delete shapes whose `shape_id` is not among remaining trips' shape ids.

The calendars and calendar_dates tables are not touched (the Go `TODO`).  The
post-state is returned alongside the result in every case (on an error before
the deletes the store is unchanged). -/
def Trim (s : Store) (like : String) : Except TrimErr (List TrimItemsResult) × Store :=
  match requiredTables.find? (fun t => !(s.tables.contains t)) with
  | some t => (.error (.missingTable t), s)
  | none =>
    match (sortByID s.agencies).find? (fun a => likeMatch a.Name like) with
    | none => (.error .recordNotFound, s)
    | some agency =>
      let ag := s.agencies.filter (fun a => a.ID == agency.ID)
      let r1 : TrimItemsResult := ⟨.Agencies, s.agencies.length - ag.length, ag.length⟩
      let rt := s.routes.filter (fun r => ag.any (fun a => a.ID == r.AgencyID))
      let r2 : TrimItemsResult := ⟨.Routes, s.routes.length - rt.length, rt.length⟩
      let tr := s.trips.filter (fun t => rt.any (fun r => r.ID == t.RouteID))
      let r3 : TrimItemsResult := ⟨.Trips, s.trips.length - tr.length, tr.length⟩
      let st := s.stop_times.filter (fun x => tr.any (fun t => t.ID == x.TripID))
      let r4 : TrimItemsResult := ⟨.StopTimes, s.stop_times.length - st.length, st.length⟩
      let sp := s.stops.filter (fun p => st.any (fun x => x.StopID == p.ID))
      let r5 : TrimItemsResult := ⟨.Stops, s.stops.length - sp.length, sp.length⟩
      let sh := s.shapes.filter (fun h => tr.any (fun t => t.ShapeID == h.ShapeID))
      let r6 : TrimItemsResult := ⟨.Shapes, s.shapes.length - sh.length, sh.length⟩
      (.ok [r1, r2, r3, r4, r5, r6],
        { s with agencies := ag, routes := rt, trips := tr, stop_times := st,
                 stops := sp, shapes := sh })

/-! ## Digit-string helpers used to state codec properties -/

/-- Every character of the list is an ASCII decimal digit. -/
def allDigits (l : List Char) : Prop := ∀ c ∈ l, (digit? c).isSome = true

instance : DecidablePred allDigits := fun l =>
  List.decidableBAll (fun c => (digit? c).isSome = true) l

/-- Value of a decimal digit string (most significant digit first). -/
def decVal (l : List Char) : Nat :=
  l.foldl (fun a c => a * 10 + (c.toNat - 48)) 0

/-! ## The Trim test scenario (§8 of the spec): two agencies with data split
between them -/

/-- The unrelated agency `"A"`. -/
def agencyA : Agency := ⟨"1", "A", "http://a.example"⟩

/-- The target agency. -/
def agencyS : Agency := ⟨"2", "S-Bahn Berlin GmbH", "https://sbahn.berlin"⟩

/-- A route of agency `"A"`. -/
def routeA : Route := ⟨"rA", "1", "A1", "A line", 3⟩

/-- A route of the S-Bahn agency. -/
def routeS : Route := ⟨"rS", "2", "S1", "S-Bahn line", 109⟩

/-- A trip on `routeA`, tracing shape `shA`. -/
def tripA : Trip := ⟨"tA", "", "rA", "svcA", "0", "shA"⟩

/-- A trip on `routeS`, tracing shape `shS`. -/
def tripS : Trip := ⟨"tS", "", "rS", "svcS", "0", "shS"⟩

/-- A stop served only by `tripA`. -/
def stopA : Stop := ⟨"pA", "A stop", 52, 13⟩

/-- A stop served only by `tripS`. -/
def stopS : Stop := ⟨"pS", "S stop", 53, 14⟩

/-- The stop_time of `tripA` at `stopA`. -/
def stopTimeA : StopTime := ⟨1, "pA", "tA", 100, 90, 1⟩

/-- The stop_time of `tripS` at `stopS`. -/
def stopTimeS : StopTime := ⟨2, "pS", "tS", 200, 190, 1⟩

/-- A shape point of shape `shA`. -/
def shapeA : Shape := ⟨1, "shA", 52, 13, 1⟩

/-- A shape point of shape `shS`. -/
def shapeS : Shape := ⟨2, "shS", 53, 14, 1⟩

/-- A calendar row (Trim never touches it). -/
def calRow : Calendar := ⟨1, "svcS", 1, 1, 1, 1, 1, 0, 0, "20240101", "20241231"⟩

/-- A calendar_dates row (Trim never touches it). -/
def calDateRow : CalendarDate := ⟨1, "svcS", "20240501", 2⟩

/-- The populated store of the Trim scenario: all eight tables present, rows
split between agency `"A"` and agency `"S-Bahn Berlin GmbH"`. -/
def demoStore : Store :=
  ⟨requiredTables,
   [agencyA, agencyS],
   [routeA, routeS],
   [tripA, tripS],
   [stopTimeA, stopTimeS],
   [stopA, stopS],
   [shapeA, shapeS],
   [calRow],
   [calDateRow]⟩

/-! Transitive reachability from one agency, as the claim describes it: a route
belongs to the agency, a trip to such a route, a stop_time to such a trip, and a
shape-group to such a trip's shape key. -/

/-- A route is reachable from the agency when its `agency_id` is the agency's key. -/
def routeReach (ag : Agency) (r : Route) : Bool :=
  r.AgencyID == ag.ID

/-- A trip is reachable when its route (in the pre-state) is reachable. -/
def tripReach (s : Store) (ag : Agency) (t : Trip) : Bool :=
  s.routes.any fun r => routeReach ag r && r.ID == t.RouteID

/-- A stop_time is reachable when its trip (in the pre-state) is reachable. -/
def stopTimeReach (s : Store) (ag : Agency) (x : StopTime) : Bool :=
  s.trips.any fun t => tripReach s ag t && t.ID == x.TripID

/-- A shape row is reachable when some reachable trip references its shape key. -/
def shapeReach (s : Store) (ag : Agency) (h : Shape) : Bool :=
  s.trips.any fun t => tripReach s ag t && t.ShapeID == h.ShapeID

/-- Import environment of the missing-file scenario: `routes.txt` fails to open,
every other source opens and decodes, and the store accepts every write. -/
def demoEnv : ImportEnv :=
  ⟨.ok [agencyA, agencyS],
   .error "open routes.txt: no such file or directory",
   .ok [tripA, tripS],
   .ok [stopA, stopS],
   .ok [stopTimeA, stopTimeS],
   .ok [shapeA, shapeS],
   .ok [calRow],
   .ok [calDateRow],
   fun _ _ => none⟩

/-! # Theorems -/

deriving instance DecidableEq for Except

/-- Membership in an ordered insertion comes from the inserted element or the list. -/
theorem mem_insertByID {x a : Agency} : ∀ {l : List Agency}, x ∈ insertByID a l → x = a ∨ x ∈ l
  | [], h => by simpa [insertByID] using h
  | b :: rest, h => by
    by_cases hle : strLeB a.ID.data b.ID.data = true
    · rw [insertByID, if_pos hle] at h
      simpa using h
    · rcases by simpa [insertByID, hle] using h with h' | h'
      · exact Or.inr (by simp [h'])
      · rcases mem_insertByID h' with h'' | h''
        · exact Or.inl h''
        · exact Or.inr (by simp [h''])

/-- The primary-key sort used to model gorm's `First` does not invent agencies. -/
theorem mem_sortByID {x : Agency} : ∀ {l : List Agency}, x ∈ sortByID l → x ∈ l
  | [], h => by simp [sortByID] at h
  | b :: rest, h => by
    rcases mem_insertByID (by simpa [sortByID] using h) with h' | h'
    · simp [h']
    · exact List.mem_cons_of_mem _ (mem_sortByID (by simpa [sortByID] using h'))

/-- C1: for the store with agencies "A" and "S-Bahn Berlin GmbH" and
routes/trips/stops/stop_times/shapes split between them, `Trim` with fragment
"S-Bahn" succeeds (six per-step results); afterwards exactly the matched agency
row remains, every route, trip, stop_time and shape row not transitively
reachable from it is gone, and every stop referenced by a remaining stop_time
is still present unchanged. -/
theorem trim_sbahn_scenario :
    (Trim demoStore "S-Bahn").1 =
      .ok [⟨.Agencies, 1, 1⟩, ⟨.Routes, 1, 1⟩, ⟨.Trips, 1, 1⟩,
           ⟨.StopTimes, 1, 1⟩, ⟨.Stops, 1, 1⟩, ⟨.Shapes, 1, 1⟩] ∧
    (Trim demoStore "S-Bahn").2.agencies = [agencyS] ∧
    (demoStore.routes.all fun r =>
      routeReach agencyS r || !((Trim demoStore "S-Bahn").2.routes.contains r)) = true ∧
    (demoStore.trips.all fun t =>
      tripReach demoStore agencyS t || !((Trim demoStore "S-Bahn").2.trips.contains t)) = true ∧
    (demoStore.stop_times.all fun x =>
      stopTimeReach demoStore agencyS x ||
        !((Trim demoStore "S-Bahn").2.stop_times.contains x)) = true ∧
    (demoStore.shapes.all fun h =>
      shapeReach demoStore agencyS h || !((Trim demoStore "S-Bahn").2.shapes.contains h)) = true ∧
    ((Trim demoStore "S-Bahn").2.stop_times.all fun x =>
      demoStore.stops.all fun p =>
        p.ID != x.StopID || (Trim demoStore "S-Bahn").2.stops.contains p) = true := by
  decide

/-- C2: every successful `Trim` performs exactly the six delete steps, in the
fixed order agencies, routes, trips, stop_times, stops, shapes, and leaves the
calendars and calendar_dates tables untouched. -/
theorem trim_six_ordered_steps (s : Store) (like : String) (rs : List TrimItemsResult)
    (hok : (Trim s like).1 = Except.ok rs) :
    rs.map TrimItemsResult.itemType =
      [ItemType.Agencies, ItemType.Routes, ItemType.Trips,
       ItemType.StopTimes, ItemType.Stops, ItemType.Shapes] ∧
    (Trim s like).2.calendars = s.calendars ∧
    (Trim s like).2.calendar_dates = s.calendar_dates := by
  have hcal : (Trim s like).2.calendars = s.calendars ∧
      (Trim s like).2.calendar_dates = s.calendar_dates := by
    unfold Trim
    constructor
    · split
      · rfl
      · split <;> rfl
    · split
      · rfl
      · split <;> rfl
  refine ⟨?_, hcal.1, hcal.2⟩
  unfold Trim at hok
  split at hok
  next t heq =>
    simp at hok
  next heq =>
    split at hok
    next heq2 =>
      simp at hok
    next ag heq2 =>
      simp only [Except.ok.injEq] at hok
      subst hok
      simp

/-- C2 witness: the scenario store trims successfully, with the six steps in order
and untouched calendar tables. -/
theorem trim_six_ordered_steps_witness :
    ([⟨.Agencies, 1, 1⟩, ⟨.Routes, 1, 1⟩, ⟨.Trips, 1, 1⟩,
      ⟨.StopTimes, 1, 1⟩, ⟨.Stops, 1, 1⟩, ⟨.Shapes, 1, 1⟩] :
        List TrimItemsResult).map TrimItemsResult.itemType =
      [ItemType.Agencies, ItemType.Routes, ItemType.Trips,
       ItemType.StopTimes, ItemType.Stops, ItemType.Shapes] ∧
    (Trim demoStore "S-Bahn").2.calendars = demoStore.calendars ∧
    (Trim demoStore "S-Bahn").2.calendar_dates = demoStore.calendar_dates :=
  trim_six_ordered_steps demoStore "S-Bahn" _ (by decide)

/-- C6: when no agency name LIKE-matches the fragment, `Trim` returns gorm's
record-not-found error and the store is returned exactly as it was — no delete
statement has run. -/
theorem trim_not_found (s : Store) (like : String)
    (htab : ∀ t ∈ requiredTables, s.tables.contains t = true)
    (hnone : ∀ a ∈ s.agencies, likeMatch a.Name like = false) :
    Trim s like = (.error .recordNotFound, s) := by
  have h1 : requiredTables.find? (fun t => !(s.tables.contains t)) = none := by
    rw [List.find?_eq_none]
    intro t ht
    have h := htab t ht
    simp at h
    simp [h]
  have h2 : (sortByID s.agencies).find? (fun a => likeMatch a.Name like) = none := by
    rw [List.find?_eq_none]
    intro a ha
    simp [hnone a (mem_sortByID ha)]
  unfold Trim
  rw [h1, h2]

/-- C6 witness: fragment "ZZZ" matches no agency of the scenario store; `Trim`
reports not-found and the store is unchanged. -/
theorem trim_not_found_witness :
    Trim demoStore "ZZZ" = (.error .recordNotFound, demoStore) :=
  trim_not_found demoStore "ZZZ" (by decide) (by decide)

/-- `db.Create` under the all-success oracle commits the batch. -/
theorem dbCreate_noFail {α : Type} (tbl : List (List α)) (batch : List α) :
    dbCreate noFail tbl batch = .ok (tbl ++ [batch]) := rfl

/-- `db.Create` fails when the oracle fails at the current write index. -/
theorem dbCreate_fails {α : Type} (f : WriteOracle) (tbl : List (List α)) (batch : List α)
    (e : String) (h : f tbl.length = some e) : dbCreate f tbl batch = .error e := by
  simp [dbCreate, h]

/-- `db.Create` commits when the oracle passes the current write index. -/
theorem dbCreate_ok {α : Type} (f : WriteOracle) (tbl : List (List α)) (batch : List α)
    (h : f tbl.length = none) : dbCreate f tbl batch = .ok (tbl ++ [batch]) := by
  simp [dbCreate, h]

/-- Full characterisation of a failure-free batch-insert run, by induction over the
input stream with generalised buffer, counters and table state: the result carries
the kind, no error, the item count, and `⌈(buffered+incoming)/1000⌉` new batches;
the table gains exactly those batches, holding exactly the buffered and incoming
records in order, and every committed batch is non-empty. -/
theorem batchIns_noFail_spec {α : Type} (it : ItemType) (items : List α) :
    ∀ (tbl : List (List α)) (cnt bc : Nat) (buf : List α), buf.length < 1000 →
      (batchIns it noFail items tbl cnt bc buf).1.itemType = it ∧
      (batchIns it noFail items tbl cnt bc buf).1.error = none ∧
      (batchIns it noFail items tbl cnt bc buf).1.count = cnt + items.length ∧
      (batchIns it noFail items tbl cnt bc buf).1.batches =
        bc + (buf.length + items.length + 999) / 1000 ∧
      (batchIns it noFail items tbl cnt bc buf).2.length =
        tbl.length + (buf.length + items.length + 999) / 1000 ∧
      (batchIns it noFail items tbl cnt bc buf).2.flatten = tbl.flatten ++ buf ++ items ∧
      (∀ b ∈ (batchIns it noFail items tbl cnt bc buf).2, b ∈ tbl ∨ b ≠ []) := by
  induction items with
  | nil =>
    intro tbl cnt bc buf hbuf
    simp only [batchIns]
    by_cases h0 : buf.length > 0
    · rw [if_pos h0]
      simp only [dbCreate_noFail]
      refine ⟨by simp, by simp, by simp, by simp; omega, by simp; omega, by simp, ?_⟩
      intro b hb
      rcases List.mem_append.mp hb with h | h
      · exact Or.inl h
      · simp at h
        subst h
        exact Or.inr (by simpa using List.length_pos.mp h0)
    · rw [if_neg h0]
      have hnil : buf = [] := by
        simpa using List.length_eq_zero.mp (by omega)
      subst hnil
      exact ⟨rfl, rfl, by simp, by simp, by simp, by simp, fun b hb => Or.inl hb⟩
  | cons x rest ih =>
    intro tbl cnt bc buf hbuf
    simp only [batchIns]
    by_cases hfull : (buf ++ [x]).length = batchSize
    · rw [if_pos hfull]
      simp only [dbCreate_noFail]
      have hlen : buf.length + 1 = 1000 := by simpa [batchSize] using hfull
      obtain ⟨e1, e2, e3, e4, e5, e6, e7⟩ :=
        ih (tbl ++ [buf ++ [x]]) (cnt + 1) (bc + 1) [] (by norm_num)
      refine ⟨e1, e2, ?_, ?_, ?_, ?_, ?_⟩
      · rw [e3]; simp; omega
      · rw [e4]; simp; omega
      · rw [e5]; simp; omega
      · rw [e6]; simp
      · intro b hb
        rcases e7 b hb with h | h
        · rcases List.mem_append.mp h with h' | h'
          · exact Or.inl h'
          · simp at h'
            subst h'
            exact Or.inr (by simp)
        · exact Or.inr h
    · rw [if_neg hfull]
      have hlt : (buf ++ [x]).length < 1000 := by
        simp [batchSize] at hfull ⊢
        omega
      obtain ⟨e1, e2, e3, e4, e5, e6, e7⟩ := ih tbl (cnt + 1) bc (buf ++ [x]) hlt
      refine ⟨e1, e2, ?_, ?_, ?_, ?_, e7⟩
      · rw [e3]; simp; omega
      · rw [e4]; simp; omega
      · rw [e5]; simp; omega
      · rw [e6]; simp

/-- C3: feeding any sequence of N records to a batch inserter (batch size 1000)
with no persistence failure reports no error, counts all N records, writes
`(N + 999) / 1000` batches — the ceiling of N/1000, which is 0 when N = 0 — and
the store holds exactly the N records, with no batch written for an empty
trailing buffer (every committed batch is non-empty). -/
theorem batch_insert_counts (items : List Agency) :
    (batchImportAgencies noFail items).1.error = none ∧
    (batchImportAgencies noFail items).1.count = items.length ∧
    (batchImportAgencies noFail items).1.batches = (items.length + 999) / 1000 ∧
    (batchImportAgencies noFail items).2.length = (items.length + 999) / 1000 ∧
    (batchImportAgencies noFail items).2.flatten = items ∧
    ((batchImportAgencies noFail items).2.all fun b => !b.isEmpty) = true := by
  obtain ⟨e1, e2, e3, e4, e5, e6, e7⟩ :=
    batchIns_noFail_spec .Agencies items [] 0 0 [] (by norm_num)
  unfold batchImportAgencies
  refine ⟨e2, by simpa using e3, by simpa using e4, by simpa using e5, by simpa using e6, ?_⟩
  rw [List.all_eq_true]
  intro b hb
  rcases e7 b hb with h | h
  · simp at h
  · simpa [List.isEmpty_iff] using h

/-- If the oracle fails at the current write index, any run that still has at
least one record to write ends with the error-only result and an unchanged table. -/
theorem batchIns_fail0 {α : Type} (it : ItemType) (f : WriteOracle) (e : String) (items : List α) :
    ∀ (tbl : List (List α)) (cnt bc : Nat) (buf : List α),
      buf.length < 1000 → 0 < buf.length + items.length →
      f tbl.length = some e →
      batchIns it f items tbl cnt bc buf = (⟨it, 0, 0, some e⟩, tbl) := by
  induction items with
  | nil =>
    intro tbl cnt bc buf hbuf hpos hf
    simp only [batchIns]
    rw [if_pos (by simpa using hpos), dbCreate_fails f tbl buf e hf]
  | cons x rest ih =>
    intro tbl cnt bc buf hbuf hpos hf
    simp only [batchIns]
    by_cases hfull : (buf ++ [x]).length = batchSize
    · rw [if_pos hfull, dbCreate_fails f tbl _ e hf]
    · rw [if_neg hfull]
      refine ih tbl (cnt + 1) bc (buf ++ [x]) ?_ (by simp) hf
      simp [batchSize] at hfull
      simp
      omega

/-- A run whose buffer plus input reaches the batch size, with a successful next
write, first commits one full batch: it equals the run on the remaining input
with the committed batch appended. -/
theorem batchIns_advance {α : Type} (it : ItemType) (f : WriteOracle) (items : List α) :
    ∀ (tbl : List (List α)) (cnt bc : Nat) (buf : List α),
      buf.length < 1000 → 1000 ≤ buf.length + items.length →
      f tbl.length = none →
      batchIns it f items tbl cnt bc buf =
        batchIns it f (items.drop (1000 - buf.length))
          (tbl ++ [buf ++ items.take (1000 - buf.length)])
          (cnt + (1000 - buf.length)) (bc + 1) [] := by
  induction items with
  | nil =>
    intro tbl cnt bc buf hbuf hge hf
    simp at hge
    omega
  | cons x rest ih =>
    intro tbl cnt bc buf hbuf hge hf
    simp only [batchIns]
    by_cases hfull : (buf ++ [x]).length = batchSize
    · rw [if_pos hfull, dbCreate_ok f tbl _ hf]
      have h1 : 1000 - buf.length = 1 := by
        simp [batchSize] at hfull
        omega
      rw [h1]
      simp
    · rw [if_neg hfull]
      have hlt : (buf ++ [x]).length < 1000 := by
        simp [batchSize] at hfull
        simp
        omega
      rw [ih tbl (cnt + 1) bc (buf ++ [x]) hlt
        (by simp only [List.length_append, List.length_cons, List.length_nil] at hge ⊢; omega) hf]
      have h2 : 1000 - buf.length = (1000 - (buf ++ [x]).length) + 1 := by
        simp
        omega
      have h3 : cnt + ((1000 - (buf ++ [x]).length) + 1) =
          cnt + 1 + (1000 - (buf ++ [x]).length) := by omega
      rw [h2, h3]
      simp

/-- A batch-insert run whose oracle passes the next `K` write indices and fails at
index `tbl.length + K`, fed more than `K` full batches of records, errors at its
`(K+1)`-st write: it reports that write's error, has committed exactly `K` further
batches, and those batches hold exactly the first `K*1000` records. -/
theorem batchIns_failK {α : Type} (it : ItemType) (f : WriteOracle) (e : String) :
    ∀ (K : Nat) (items : List α) (tbl : List (List α)) (cnt bc : Nat),
      (∀ j, tbl.length ≤ j → j < tbl.length + K → f j = none) →
      f (tbl.length + K) = some e →
      K * 1000 < items.length →
      (batchIns it f items tbl cnt bc []).1 = ⟨it, 0, 0, some e⟩ ∧
      (batchIns it f items tbl cnt bc []).2.length = tbl.length + K ∧
      (batchIns it f items tbl cnt bc []).2.flatten = tbl.flatten ++ items.take (K * 1000) := by
  intro K
  induction K with
  | zero =>
    intro items tbl cnt bc hpre hf hlen
    rw [batchIns_fail0 it f e items tbl cnt bc [] (by norm_num) (by simp; omega)
      (by simpa using hf)]
    exact ⟨rfl, by simp, by simp⟩
  | succ K ih =>
    intro items tbl cnt bc hpre hf hlen
    rw [batchIns_advance it f items tbl cnt bc [] (by norm_num) (by simp; omega)
      (hpre tbl.length (Nat.le_refl _) (by omega))]
    simp only [List.length_nil, Nat.sub_zero, List.nil_append]
    obtain ⟨g1, g2, g3⟩ := ih (items.drop 1000) (tbl ++ [items.take 1000]) (cnt + 1000) (bc + 1)
      (fun j hj1 hj2 => hpre j (by simp at hj1; omega) (by simp at hj2; omega))
      (by rw [List.length_append]; convert hf using 2; simp; omega)
      (by simp; omega)
    refine ⟨g1, ?_, ?_⟩
    · rw [g2]
      simp
      omega
    · rw [g3]
      have h4 : (K + 1) * 1000 = 1000 + K * 1000 := by ring
      rw [h4, List.take_add]
      simp

/-- C5: if the k-th batch write fails, the inserter reports a result carrying
that error (with zeroed counters, as the Go code sends), consumes no further
input and issues no further writes — the store holds exactly the k−1 previously
committed batches — and those batches, the first (k−1)·1000 records, remain
persisted with no rollback. -/
theorem batch_insert_failure (k : Nat) (e : String) (f : WriteOracle) (items : List Agency)
    (hk : 1 ≤ k)
    (hbefore : ∀ j, j + 1 < k → f j = none)
    (hfail : f (k - 1) = some e)
    (hlen : (k - 1) * 1000 < items.length) :
    (batchImportAgencies f items).1 = ⟨.Agencies, 0, 0, some e⟩ ∧
    (batchImportAgencies f items).2.length = k - 1 ∧
    (batchImportAgencies f items).2.flatten = items.take ((k - 1) * 1000) := by
  obtain ⟨g1, g2, g3⟩ := batchIns_failK .Agencies f e (k - 1) items [] 0 0
    (fun j hj1 hj2 => hbefore j (by simp at hj2; omega))
    (by simpa using hfail) hlen
  exact ⟨g1, by simpa using g2, by simpa using g3⟩

/-- C5 witness: with an oracle whose first write fails, one record triggers the
final-flush write, which errors; nothing is committed. -/
theorem batch_insert_failure_witness :
    (batchImportAgencies (fun _ => some "disk full") [agencyA]).1 =
      ⟨.Agencies, 0, 0, some "disk full"⟩ ∧
    (batchImportAgencies (fun _ => some "disk full") [agencyA]).2.length = 0 ∧
    (batchImportAgencies (fun _ => some "disk full") [agencyA]).2.flatten =
      [agencyA].take 0 :=
  batch_insert_failure 1 "disk full" (fun _ => some "disk full") [agencyA]
    (by norm_num) (fun j hj => absurd hj (by omega)) rfl (by norm_num)

/-- A successfully opened source with a failure-free oracle, into an empty table,
reports full success: the kind tag, all records counted, the ceiling batch count,
and no error. -/
theorem importItems_ok {α : Type} (it : ItemType) (f : WriteOracle) (items : List α)
    (hf : ∀ j, f j = none) :
    (importItems (.ok items) it f []).1 =
      ⟨it, items.length, (items.length + 999) / 1000, none⟩ := by
  have hfe : f = noFail := funext hf
  subst hfe
  obtain ⟨e1, e2, e3, e4, _, _, _⟩ := batchIns_noFail_spec it items [] 0 0 [] (by norm_num)
  show (batchIns it noFail items [] 0 0 []).1 = _
  rcases hres : (batchIns it noFail items [] 0 0 []).1 with ⟨a, b, c, d⟩
  rw [hres] at e1 e2 e3 e4
  simp only at e1 e2 e3 e4
  subst e1 e2 e3 e4
  simp

/-- C4: the orchestrator processes the eight kinds strictly in the fixed order
and emits exactly one result per kind on the (then closed) progress channel; a
kind whose source file does not open is reported at that kind's position with
the open error and nothing of that kind persisted, while every other kind is
still processed and reports success with its record count. -/
theorem import_missing_source (env : ImportEnv) (i : Fin 8) (e : String)
    (hfails : ∀ it j, env.fails it j = none)
    (hmiss : fileOpenErr env i = some e)
    (hok : ∀ j : Fin 8, j ≠ i → fileOpenErr env j = none) :
    (Import env emptyDB).1.length = 8 ∧
    ((Import env emptyDB).1.getD i.val ⟨.Agencies, 0, 0, none⟩).error = some e ∧
    tableRows (Import env emptyDB).2 i = 0 ∧
    ∀ j : Fin 8, j ≠ i →
      ((Import env emptyDB).1.getD j.val ⟨.Agencies, 0, 0, none⟩).error = none ∧
      ((Import env emptyDB).1.getD j.val ⟨.Agencies, 0, 0, none⟩).itemType = kindAt j ∧
      ((Import env emptyDB).1.getD j.val ⟨.Agencies, 0, 0, none⟩).count = fileCount env j := by
  have h4 : ∀ j : Fin 8, fileOpenErr env j = none →
      ((Import env emptyDB).1.getD j.val ⟨.Agencies, 0, 0, none⟩).error = none ∧
      ((Import env emptyDB).1.getD j.val ⟨.Agencies, 0, 0, none⟩).itemType = kindAt j ∧
      ((Import env emptyDB).1.getD j.val ⟨.Agencies, 0, 0, none⟩).count = fileCount env j := by
    intro j hopen
    fin_cases j
    · rcases hfile : env.agencyFile with e' | l
      · simp [fileOpenErr, hfile] at hopen
      · have hh := importItems_ok .Agencies (env.fails .Agencies) l (hfails .Agencies)
        refine ⟨?_, ?_, ?_⟩ <;> simp [Import, emptyDB, hfile, hh, kindAt, fileCount]
    · rcases hfile : env.routeFile with e' | l
      · simp [fileOpenErr, hfile] at hopen
      · have hh := importItems_ok .Routes (env.fails .Routes) l (hfails .Routes)
        refine ⟨?_, ?_, ?_⟩ <;> simp [Import, emptyDB, hfile, hh, kindAt, fileCount]
    · rcases hfile : env.tripFile with e' | l
      · simp [fileOpenErr, hfile] at hopen
      · have hh := importItems_ok .Trips (env.fails .Trips) l (hfails .Trips)
        refine ⟨?_, ?_, ?_⟩ <;> simp [Import, emptyDB, hfile, hh, kindAt, fileCount]
    · rcases hfile : env.stopFile with e' | l
      · simp [fileOpenErr, hfile] at hopen
      · have hh := importItems_ok .Stops (env.fails .Stops) l (hfails .Stops)
        refine ⟨?_, ?_, ?_⟩ <;> simp [Import, emptyDB, hfile, hh, kindAt, fileCount]
    · rcases hfile : env.stopTimeFile with e' | l
      · simp [fileOpenErr, hfile] at hopen
      · have hh := importItems_ok .StopTimes (env.fails .StopTimes) l (hfails .StopTimes)
        refine ⟨?_, ?_, ?_⟩ <;> simp [Import, emptyDB, hfile, hh, kindAt, fileCount]
    · rcases hfile : env.shapeFile with e' | l
      · simp [fileOpenErr, hfile] at hopen
      · have hh := importItems_ok .Shapes (env.fails .Shapes) l (hfails .Shapes)
        refine ⟨?_, ?_, ?_⟩ <;> simp [Import, emptyDB, hfile, hh, kindAt, fileCount]
    · rcases hfile : env.calendarFile with e' | l
      · simp [fileOpenErr, hfile] at hopen
      · have hh := importItems_ok .Calendars (env.fails .Calendars) l (hfails .Calendars)
        refine ⟨?_, ?_, ?_⟩ <;> simp [Import, emptyDB, hfile, hh, kindAt, fileCount]
    · rcases hfile : env.calendarDateFile with e' | l
      · simp [fileOpenErr, hfile] at hopen
      · have hh := importItems_ok .CalendarDates (env.fails .CalendarDates) l
          (hfails .CalendarDates)
        refine ⟨?_, ?_, ?_⟩ <;> simp [Import, emptyDB, hfile, hh, kindAt, fileCount]
  have h23 : ((Import env emptyDB).1.getD i.val ⟨.Agencies, 0, 0, none⟩).error = some e ∧
      tableRows (Import env emptyDB).2 i = 0 := by
    fin_cases i
    · rcases hfile : env.agencyFile with e' | l
      · have he : e' = e := by simpa [fileOpenErr, hfile] using hmiss
        subst he
        exact ⟨by simp [Import, importItems, emptyDB, hfile],
               by simp [Import, importItems, tableRows, emptyDB, hfile]⟩
      · simp [fileOpenErr, hfile] at hmiss
    · rcases hfile : env.routeFile with e' | l
      · have he : e' = e := by simpa [fileOpenErr, hfile] using hmiss
        subst he
        exact ⟨by simp [Import, importItems, emptyDB, hfile],
               by simp [Import, importItems, tableRows, emptyDB, hfile]⟩
      · simp [fileOpenErr, hfile] at hmiss
    · rcases hfile : env.tripFile with e' | l
      · have he : e' = e := by simpa [fileOpenErr, hfile] using hmiss
        subst he
        exact ⟨by simp [Import, importItems, emptyDB, hfile],
               by simp [Import, importItems, tableRows, emptyDB, hfile]⟩
      · simp [fileOpenErr, hfile] at hmiss
    · rcases hfile : env.stopFile with e' | l
      · have he : e' = e := by simpa [fileOpenErr, hfile] using hmiss
        subst he
        exact ⟨by simp [Import, importItems, emptyDB, hfile],
               by simp [Import, importItems, tableRows, emptyDB, hfile]⟩
      · simp [fileOpenErr, hfile] at hmiss
    · rcases hfile : env.stopTimeFile with e' | l
      · have he : e' = e := by simpa [fileOpenErr, hfile] using hmiss
        subst he
        exact ⟨by simp [Import, importItems, emptyDB, hfile],
               by simp [Import, importItems, tableRows, emptyDB, hfile]⟩
      · simp [fileOpenErr, hfile] at hmiss
    · rcases hfile : env.shapeFile with e' | l
      · have he : e' = e := by simpa [fileOpenErr, hfile] using hmiss
        subst he
        exact ⟨by simp [Import, importItems, emptyDB, hfile],
               by simp [Import, importItems, tableRows, emptyDB, hfile]⟩
      · simp [fileOpenErr, hfile] at hmiss
    · rcases hfile : env.calendarFile with e' | l
      · have he : e' = e := by simpa [fileOpenErr, hfile] using hmiss
        subst he
        exact ⟨by simp [Import, importItems, emptyDB, hfile],
               by simp [Import, importItems, tableRows, emptyDB, hfile]⟩
      · simp [fileOpenErr, hfile] at hmiss
    · rcases hfile : env.calendarDateFile with e' | l
      · have he : e' = e := by simpa [fileOpenErr, hfile] using hmiss
        subst he
        exact ⟨by simp [Import, importItems, emptyDB, hfile],
               by simp [Import, importItems, tableRows, emptyDB, hfile]⟩
      · simp [fileOpenErr, hfile] at hmiss
  exact ⟨rfl, h23.1, h23.2, fun j hji => h4 j (hok j hji)⟩

/-- C4 witness: with `routes.txt` missing, the channel carries eight results, the
second carries the open error with an empty routes table, and (sampling position
0) the other kinds import successfully with their counts. -/
theorem import_missing_source_witness :
    (Import demoEnv emptyDB).1.length = 8 ∧
    ((Import demoEnv emptyDB).1.getD (1 : Fin 8).val ⟨.Agencies, 0, 0, none⟩).error =
      some "open routes.txt: no such file or directory" ∧
    tableRows (Import demoEnv emptyDB).2 1 = 0 ∧
    (((Import demoEnv emptyDB).1.getD (0 : Fin 8).val ⟨.Agencies, 0, 0, none⟩).error = none ∧
     ((Import demoEnv emptyDB).1.getD (0 : Fin 8).val ⟨.Agencies, 0, 0, none⟩).itemType =
       kindAt 0 ∧
     ((Import demoEnv emptyDB).1.getD (0 : Fin 8).val ⟨.Agencies, 0, 0, none⟩).count =
       fileCount demoEnv 0) :=
  have h := import_missing_source demoEnv 1 "open routes.txt: no such file or directory"
    (fun _ _ => rfl) rfl (by decide)
  ⟨h.1, h.2.1, h.2.2.1, h.2.2.2 0 (by decide)⟩

/-! ## TimeCodec lemmas -/

/-- 64-bit wrapping is the identity on values already in the `int64` range. -/
theorem wrap64_id (n : Int) (h1 : -9223372036854775808 ≤ n)
    (h2 : n < 9223372036854775808) : wrap64 n = n := by
  unfold wrap64
  omega

/-- 32-bit truncation is the identity on values already in the `int32` range. -/
theorem wrap32_id (n : Int) (h1 : -2147483648 ≤ n) (h2 : n < 2147483648) : wrap32 n = n := by
  unfold wrap32
  omega

/-- A 32-bit truncated value always lies in the `int32` range. -/
theorem wrap32_bounds (n : Int) : -2147483648 ≤ wrap32 n ∧ wrap32 n ≤ 2147483647 := by
  unfold wrap32
  constructor <;> omega

/-- Go's stepwise wrapping `int` evaluation of `a*3600 + b*60 + c` agrees with a
single 64-bit wrap of the mathematical sum (they are the same residue mod 2^64). -/
theorem w64_sum (a b c : Int) :
    wrap64 (wrap64 (wrap64 a + wrap64 b) + c) = wrap64 (a + b + c) := by
  unfold wrap64
  omega

/-- A character whose digit test passes has code 48–57 and that digit value. -/
theorem digit?_of_isSome {c : Char} (h : (digit? c).isSome = true) :
    digit? c = some (c.toNat - 48) ∧ 48 ≤ c.toNat ∧ c.toNat ≤ 57 := by
  by_cases hc : 48 ≤ c.toNat ∧ c.toNat ≤ 57
  · exact ⟨by simp [digit?, hc], hc.1, hc.2⟩
  · simp [digit?, hc] at h

/-- The digit loop over an append runs the two halves in sequence. -/
theorem parseDigAux_append (l1 l2 : List Char) :
    ∀ acc, parseDigAux (l1 ++ l2) acc =
      match parseDigAux l1 acc with
      | some v => parseDigAux l2 v
      | none => none := by
  induction l1 with
  | nil => intro acc; rfl
  | cons c cs ih =>
    intro acc
    simp only [List.cons_append, parseDigAux]
    cases digit? c with
    | none => rfl
    | some d => exact ih (acc * 10 + d)

/-- On an all-digit string the digit loop never fails and folds up the value. -/
theorem parseDigAux_allDigits (l : List Char) (hd : allDigits l) :
    ∀ acc, parseDigAux l acc =
      some (l.foldl (fun a c => a * 10 + (c.toNat - 48)) acc) := by
  induction l with
  | nil => intro acc; rfl
  | cons c cs ih =>
    intro acc
    have hc := (digit?_of_isSome (hd c (by simp))).1
    simp only [parseDigAux, hc, List.foldl_cons]
    exact ih (fun x hx => hd x (by simp [hx])) _

/-- The digit fold is bounded by the number of digits consumed. -/
theorem foldl_digits_lt (l : List Char) (hd : allDigits l) :
    ∀ acc, l.foldl (fun a c => a * 10 + (c.toNat - 48)) acc < (acc + 1) * 10 ^ l.length := by
  induction l with
  | nil => intro acc; simp
  | cons c cs ih =>
    intro acc
    have hc := (digit?_of_isSome (hd c (by simp))).2
    have h1 := ih (fun x hx => hd x (by simp [hx])) (acc * 10 + (c.toNat - 48))
    calc List.foldl (fun a c => a * 10 + (c.toNat - 48)) (acc * 10 + (c.toNat - 48)) cs
        < (acc * 10 + (c.toNat - 48) + 1) * 10 ^ cs.length := h1
      _ ≤ ((acc + 1) * 10) * 10 ^ cs.length := by
          have : acc * 10 + (c.toNat - 48) + 1 ≤ (acc + 1) * 10 := by omega
          exact Nat.mul_le_mul_right _ this
      _ = (acc + 1) * 10 ^ (c :: cs).length := by
          simp [List.length_cons, Nat.pow_succ]
          ring

/-- The value of an all-digit string is below `10 ^ length`. -/
theorem decVal_lt (l : List Char) (hd : allDigits l) : decVal l < 10 ^ l.length := by
  simpa [decVal] using foldl_digits_lt l hd 0

/-- `strconv.Atoi` on a non-empty all-digit string within `int64` range returns
its decimal value. -/
theorem Atoi_allDigits (l : List Char) (hd : allDigits l) (hne : l ≠ [])
    (hbound : (decVal l : Int) ≤ maxI64) : Atoi l = some ((decVal l : Int)) := by
  rcases l with _ | ⟨c, cs⟩
  · cases hne rfl
  · have hc : (digit? c).isSome = true := hd c (by simp)
    have hplus : ¬ c = '+' := by
      rintro rfl
      revert hc
      decide
    have hminus : ¬ c = '-' := by
      rintro rfl
      revert hc
      decide
    have hp : parseDigits (c :: cs) = some (decVal (c :: cs)) := by
      unfold parseDigits
      rw [if_neg (by simp), parseDigAux_allDigits _ hd 0]
      rfl
    simp only [Atoi, if_neg hplus, if_neg hminus, hp, Option.some_bind, if_pos hbound]

/-- A colon is not a digit, so it does not occur in an all-digit string. -/
theorem colon_not_mem (l : List Char) (hd : allDigits l) : ':' ∉ l := by
  intro hmem
  have := hd ':' hmem
  revert this
  decide

/-- Splitting a separator-free string yields that single field. -/
theorem splitOnChar_no_sep (sep : Char) (a : List Char) (h : sep ∉ a) :
    splitOnChar sep a = [a] := by
  induction a with
  | nil => rfl
  | cons c cs ih =>
    have hcs : sep ∉ cs := fun hx => h (by simp [hx])
    have hc : ¬ c = sep := fun hx => h (by simp [hx])
    simp only [splitOnChar, if_neg hc, ih hcs]

/-- Splitting peels off a separator-free field before the first separator. -/
theorem splitOnChar_append (sep : Char) (a r : List Char) (h : sep ∉ a) :
    splitOnChar sep (a ++ sep :: r) = a :: splitOnChar sep r := by
  induction a with
  | nil => simp [splitOnChar]
  | cons c cs ih =>
    have hcs : sep ∉ cs := fun hx => h (by simp [hx])
    have hc : ¬ c = sep := fun hx => h (by simp [hx])
    simp only [List.cons_append, splitOnChar, if_neg hc, List.append_eq, ih hcs]

/-- `strings.Split` of `f1:f2:f3` with digit-only fields is the three fields. -/
theorem splitOnChar_three (f1 f2 f3 : List Char)
    (d1 : allDigits f1) (d2 : allDigits f2) (d3 : allDigits f3) :
    splitOnChar ':' (f1 ++ (':' :: (f2 ++ (':' :: f3)))) = [f1, f2, f3] := by
  rw [splitOnChar_append ':' f1 _ (colon_not_mem f1 d1),
      splitOnChar_append ':' f2 _ (colon_not_mem f2 d2),
      splitOnChar_no_sep ':' f3 (colon_not_mem f3 d3)]

/-- The digit-emission loop only prepends: its accumulator is a suffix. -/
theorem natDecAux_acc (n : Nat) : ∀ acc, natDecAux n acc = natDecAux n [] ++ acc := by
  induction n using Nat.strong_induction_on with
  | _ n ih =>
    rcases n with _ | m
    · intro acc
      simp [natDecAux]
    · intro acc
      have hlt : (m + 1) / 10 < m + 1 := Nat.div_lt_self (Nat.succ_pos m) (by omega)
      simp only [natDecAux]
      rw [ih _ hlt (Char.ofNat (48 + (m + 1) % 10) :: acc),
          ih _ hlt [Char.ofNat (48 + (m + 1) % 10)]]
      simp

/-- The character emitted for one digit passes the digit test with that value. -/
theorem digit?_dchar (k : Nat) (h : k < 10) : digit? (Char.ofNat (48 + k)) = some k := by
  interval_cases k <;> decide

/-- Decimal renderings consist only of digits. -/
theorem natDec_all (n : Nat) : allDigits (natDec n) := by
  induction n using Nat.strong_induction_on with
  | _ n ih =>
    rcases n with _ | m
    · intro c hc
      simp [natDec] at hc
      subst hc
      decide
    · intro c hc
      have hlt : (m + 1) / 10 < m + 1 := Nat.div_lt_self (Nat.succ_pos m) (by omega)
      have hd10 : (m + 1) % 10 < 10 := Nat.mod_lt _ (by omega)
      unfold natDec at hc
      rw [if_neg (by omega)] at hc
      simp only [natDecAux] at hc
      rw [natDecAux_acc] at hc
      rcases List.mem_append.mp hc with hc' | hc'
      · by_cases hq : (m + 1) / 10 = 0
        · rw [hq] at hc'
          simp [natDecAux] at hc'
        · have hna : natDecAux ((m + 1) / 10) [] = natDec ((m + 1) / 10) := by
            unfold natDec
            rw [if_neg hq]
          rw [hna] at hc'
          exact ih _ hlt c hc'
      · simp at hc'
        subst hc'
        simp [digit?_dchar _ hd10]

/-- Parsing a decimal rendering recovers the number. -/
theorem parse_natDec (n : Nat) : parseDigAux (natDec n) 0 = some n := by
  induction n using Nat.strong_induction_on with
  | _ n ih =>
    rcases n with _ | m
    · decide
    · have hlt : (m + 1) / 10 < m + 1 := Nat.div_lt_self (Nat.succ_pos m) (by omega)
      have hd10 : (m + 1) % 10 < 10 := Nat.mod_lt _ (by omega)
      have hsplit : natDec (m + 1) =
          natDecAux ((m + 1) / 10) [] ++ [Char.ofNat (48 + (m + 1) % 10)] := by
        unfold natDec
        rw [if_neg (by omega)]
        simp only [natDecAux]
        exact natDecAux_acc _ _
      rw [hsplit, parseDigAux_append]
      by_cases hq : (m + 1) / 10 = 0
      · rw [hq]
        simp only [natDecAux, parseDigAux, digit?_dchar _ hd10, Option.some.injEq]
        omega
      · have hna : natDecAux ((m + 1) / 10) [] = natDec ((m + 1) / 10) := by
          unfold natDec
          rw [if_neg hq]
        rw [hna, ih _ hlt]
        simp only [parseDigAux, digit?_dchar _ hd10, Option.some.injEq]
        omega

/-- The decimal value of a rendering is the rendered number. -/
theorem decVal_natDec (n : Nat) : decVal (natDec n) = n := by
  have h2 := parseDigAux_allDigits (natDec n) (natDec_all n) 0
  rw [parse_natDec n] at h2
  simpa [decVal] using h2.symm

/-- Decimal renderings are never empty. -/
theorem natDec_ne_nil (n : Nat) : natDec n ≠ [] := by
  rcases n with _ | m
  · simp [natDec]
  · unfold natDec
    rw [if_neg (by omega)]
    simp only [natDecAux]
    rw [natDecAux_acc]
    simp

/-- `%02d` of a natural number: a zero pad below 10, the plain rendering above. -/
theorem format02_ofNat (k : Nat) :
    format02 (k : Int) = if k ≤ 9 then '0' :: natDec k else natDec k := by
  by_cases hk : k ≤ 9
  · have h1 : (0 : Int) ≤ (k : Int) ∧ (k : Int) ≤ 9 :=
      ⟨by exact_mod_cast Nat.zero_le k, by exact_mod_cast hk⟩
    simp [format02, h1, hk]
  · have h2 : ¬((0 : Int) ≤ (k : Int) ∧ (k : Int) ≤ 9) := by
      rintro ⟨_, hc⟩
      exact hk (by exact_mod_cast hc)
    have h3 : ¬((k : Int) < 0) := by
      simp
    simp [format02, intDec, h2, h3, hk]

/-- `%02d` of a natural number consists only of digits. -/
theorem allDigits_format02 (k : Nat) : allDigits (format02 (k : Int)) := by
  rw [format02_ofNat]
  split
  · intro c hc
    rcases List.mem_cons.mp hc with rfl | hc'
    · decide
    · exact natDec_all k c hc'
  · exact natDec_all k

/-- `%02d` of a natural number is never empty. -/
theorem format02_ne_nil (k : Nat) : format02 (k : Int) ≠ [] := by
  rw [format02_ofNat]
  split
  · simp
  · exact natDec_ne_nil k

/-- The decimal value of `%02d` of a natural number is that number. -/
theorem decVal_format02 (k : Nat) : decVal (format02 (k : Int)) = k := by
  rw [format02_ofNat]
  split
  · have h0 : (0 : Nat) * 10 + ('0'.toNat - 48) = 0 := by decide
    show decVal ('0' :: natDec k) = k
    unfold decVal
    simp only [List.foldl_cons, h0]
    simpa [decVal] using decVal_natDec k
  · exact decVal_natDec k

/-- Decoding `f1:f2:f3` with non-empty all-digit fields whose weighted value is at
most `MaxInt32` succeeds with that value. -/
theorem UnmarshalCSV_digits (f1 f2 f3 : List Char)
    (d1 : allDigits f1) (n1 : f1 ≠ []) (b1 : (decVal f1 : Int) ≤ maxI64)
    (d2 : allDigits f2) (n2 : f2 ≠ []) (b2 : (decVal f2 : Int) ≤ maxI64)
    (d3 : allDigits f3) (n3 : f3 ≠ []) (b3 : (decVal f3 : Int) ≤ maxI64)
    (hs : decVal f1 * 3600 + decVal f2 * 60 + decVal f3 ≤ 2147483647) :
    UnmarshalCSV (f1 ++ (':' :: (f2 ++ (':' :: f3)))) =
      .ok (((decVal f1 * 3600 + decVal f2 * 60 + decVal f3 : Nat) : Int)) := by
  have ha1 := Atoi_allDigits f1 d1 n1 b1
  have ha2 := Atoi_allDigits f2 d2 n2 b2
  have ha3 := Atoi_allDigits f3 d3 n3 b3
  have hcast : ((decVal f1 : Int)) * 3600 + ((decVal f2 : Int)) * 60 + (decVal f3 : Int) =
      ((decVal f1 * 3600 + decVal f2 * 60 + decVal f3 : Nat) : Int) := by
    push_cast
    ring
  have hw : wrap64 (wrap64 (wrap64 ((decVal f1 : Int) * 3600) +
        wrap64 ((decVal f2 : Int) * 60)) + (decVal f3 : Int)) =
      ((decVal f1 * 3600 + decVal f2 * 60 + decVal f3 : Nat) : Int) := by
    rw [w64_sum, hcast]
    apply wrap64_id
    · omega
    · omega
  simp only [UnmarshalCSV, splitOnChar_three f1 f2 f3 d1 d2 d3, ha1, ha2, ha3, hw]
  rw [if_neg (by simp only [maxI32, not_lt]; omega),
      wrap32_id _ (by omega) (by omega)]

/-- `MarshalCSV` of a natural number: the three `%02d` fields of its truncated
divisions, joined by colons. -/
theorem Marshal_ofNat (N : Nat) :
    (MarshalCSV (N : Int)).1 =
      format02 ((N / 3600 : Nat) : Int) ++
        (':' :: (format02 ((N % 3600 / 60 : Nat) : Int) ++
          (':' :: format02 ((N % 3600 % 60 : Nat) : Int)))) := by
  have h1 : Int.tdiv (N : Int) 3600 = ((N / 3600 : Nat) : Int) := rfl
  have h2 : Int.tdiv (Int.tmod (N : Int) 3600) 60 = ((N % 3600 / 60 : Nat) : Int) := rfl
  have h3 : Int.tmod (Int.tmod (N : Int) 3600) 60 = ((N % 3600 % 60 : Nat) : Int) := rfl
  simp only [MarshalCSV, h1, h2, h3]

/-- Re-decoding the encoding of an in-range non-negative value recovers it. -/
theorem UnmarshalCSV_MarshalCSV (N : Nat) (hN : N ≤ 2147483647) :
    UnmarshalCSV (MarshalCSV (N : Int)).1 = .ok (N : Int) := by
  rw [Marshal_ofNat]
  have e1 := decVal_format02 (N / 3600)
  have e2 := decVal_format02 (N % 3600 / 60)
  have e3 := decVal_format02 (N % 3600 % 60)
  have hsum : decVal (format02 ((N / 3600 : Nat) : Int)) * 3600 +
      decVal (format02 ((N % 3600 / 60 : Nat) : Int)) * 60 +
      decVal (format02 ((N % 3600 % 60 : Nat) : Int)) = N := by
    rw [e1, e2, e3]
    omega
  have hmain := UnmarshalCSV_digits _ _ _
    (allDigits_format02 _) (format02_ne_nil _) (by rw [e1]; simp only [maxI64]; omega)
    (allDigits_format02 _) (format02_ne_nil _) (by rw [e2]; simp only [maxI64]; omega)
    (allDigits_format02 _) (format02_ne_nil _) (by rw [e3]; simp only [maxI64]; omega)
    (by rw [e1, e2, e3]; omega)
  rw [hmain]
  exact congrArg Except.ok (by exact_mod_cast hsum)

/-- C7: for every textual time of the form H:MM:SS — a 1–9 digit hours field,
two-digit minutes and seconds fields — whose total seconds value is at most
2^31−1, decoding succeeds and re-decoding the re-encoded value yields the same
value: decode (encode (decode text)) = decode text. -/
theorem codec_round_trip (hf mf sf : List Char)
    (hd : allDigits hf) (h1 : 1 ≤ hf.length) (h9 : hf.length ≤ 9)
    (md : allDigits mf) (m2 : mf.length = 2)
    (sd : allDigits sf) (s2 : sf.length = 2)
    (hsum : decVal hf * 3600 + decVal mf * 60 + decVal sf ≤ 2147483647) :
    ∃ v : Int, UnmarshalCSV (hf ++ (':' :: (mf ++ (':' :: sf)))) = .ok v ∧
      UnmarshalCSV (MarshalCSV v).1 = .ok v := by
  have hne1 : hf ≠ [] := by
    intro h
    rw [h] at h1
    simp at h1
  have hne2 : mf ≠ [] := by
    intro h
    rw [h] at m2
    simp at m2
  have hne3 : sf ≠ [] := by
    intro h
    rw [h] at s2
    simp at s2
  have b1 : (decVal hf : Int) ≤ maxI64 := by
    have hlt := decVal_lt hf hd
    have hp : (10 : Nat) ^ hf.length ≤ 1000000000 := by
      calc (10 : Nat) ^ hf.length ≤ 10 ^ 9 := Nat.pow_le_pow_right (by norm_num) h9
        _ = 1000000000 := by norm_num
    simp only [maxI64]
    omega
  have b2 : (decVal mf : Int) ≤ maxI64 := by
    have hlt := decVal_lt mf md
    rw [m2] at hlt
    norm_num at hlt
    simp only [maxI64]
    omega
  have b3 : (decVal sf : Int) ≤ maxI64 := by
    have hlt := decVal_lt sf sd
    rw [s2] at hlt
    norm_num at hlt
    simp only [maxI64]
    omega
  exact ⟨_, UnmarshalCSV_digits hf mf sf hd hne1 b1 md hne2 b2 sd hne3 b3 hsum,
    UnmarshalCSV_MarshalCSV _ hsum⟩

/-- C7 witness: the round trip at "104:05:09", which decodes to 374709 and
re-encodes to the same canonical text. -/
theorem codec_round_trip_witness :
    ∃ v : Int,
      UnmarshalCSV ("104".toList ++ (':' :: ("05".toList ++ (':' :: "09".toList)))) = .ok v ∧
      UnmarshalCSV (MarshalCSV v).1 = .ok v :=
  codec_round_trip "104".toList "05".toList "09".toList
    (by decide) (by decide) (by decide) (by decide) (by decide) (by decide) (by decide)
    (by decide)

/-- C8 counterexample: "2562047788015216:0:0" splits into three fields that all
parse as base-10 integers and its mathematical value 2562047788015216·3600
exceeds 2^31−1, yet decode accepts it and stores 1792 — the 64-bit product
wraps past the range check, refuting the claim as stated. -/
theorem decode_overflow_cex :
    splitOnChar ':' "2562047788015216:0:0".toList =
      ["2562047788015216".toList, "0".toList, "0".toList] ∧
    Atoi "2562047788015216".toList = some 2562047788015216 ∧
    Atoi "0".toList = some 0 ∧
    (2147483647 : Int) < 2562047788015216 * 3600 + 0 * 60 + 0 ∧
    UnmarshalCSV "2562047788015216:0:0".toList = .ok 1792 :=
  ⟨by decide, by decide, by decide, by decide, by decide⟩

/-- C8 (amended): when the three colon-separated fields parse to integers h, m, s
and the mathematical value h·3600 + m·60 + s exceeds 2^31−1 while staying inside
the int64 range (no 64-bit overflow during the products and sums), decode fails
with the range error and stores nothing.  Without the no-overflow proviso the
claim fails: the computation runs in wrapping 64-bit arithmetic. -/
theorem decode_range_guard (csv hs ms ss : List Char) (h m s : Int)
    (hsplit : splitOnChar ':' csv = [hs, ms, ss])
    (hh : Atoi hs = some h) (hm : Atoi ms = some m) (hs3 : Atoi ss = some s)
    (hover : 2147483647 < h * 3600 + m * 60 + s)
    (hlo : -9223372036854775808 ≤ h * 3600 + m * 60 + s)
    (hhi : h * 3600 + m * 60 + s < 9223372036854775808) :
    UnmarshalCSV csv = .error .range := by
  have hw : wrap64 (wrap64 (wrap64 (h * 3600) + wrap64 (m * 60)) + s) =
      h * 3600 + m * 60 + s := by
    rw [w64_sum]
    exact wrap64_id _ hlo hhi
  simp only [UnmarshalCSV, hsplit, hh, hm, hs3, hw]
  rw [if_pos (by simp only [maxI32]; omega)]

/-- C8 witness: "646524:20:48" is worth 2327486448 seconds, above 2^31−1 with no
int64 overflow, and decode rejects it with the range error. -/
theorem decode_range_guard_witness :
    UnmarshalCSV "646524:20:48".toList = .error .range :=
  decode_range_guard "646524:20:48".toList "646524".toList "20".toList "48".toList
    646524 20 48 (by decide) (by decide) (by decide) (by decide)
    (by norm_num) (by norm_num) (by norm_num)

/-- C9 counterexample: decode accepts "-1:0:0" (`strconv.Atoi` parses signed
fields) and stores −3600, a negative time value — refuting non-negativity as
stated. -/
theorem decode_negative_cex :
    UnmarshalCSV "-1:0:0".toList = .ok (-3600) ∧ (-3600 : Int) < 0 :=
  ⟨by decide, by norm_num⟩

/-- C9 (amended): every value a successful decode stores lies in the int32 range
[−2^31, 2^31−1]; and whenever the three parsed fields are non-negative with
their weighted sum inside int64, the stored value is exactly that non-negative
count of seconds.  Unamended non-negativity fails on "-1:0:0" (the negative
input the spec's §9 leaves open). -/
theorem decode_value_bounds (csv : List Char) (v : Int)
    (hok : UnmarshalCSV csv = .ok v) :
    (-2147483648 ≤ v ∧ v ≤ 2147483647) ∧
    (∀ hs ms ss h m s, splitOnChar ':' csv = [hs, ms, ss] →
      Atoi hs = some h → Atoi ms = some m → Atoi ss = some s →
      0 ≤ h → 0 ≤ m → 0 ≤ s → h * 3600 + m * 60 + s ≤ maxI64 →
      0 ≤ v ∧ v = h * 3600 + m * 60 + s) := by
  unfold UnmarshalCSV at hok
  split at hok
  next hs0 ms0 ss0 heq =>
    split at hok
    next => simp at hok
    next hours hA1 =>
      split at hok
      next => simp at hok
      next minutes hA2 =>
        split at hok
        next => simp at hok
        next seconds hA3 =>
          dsimp only at hok
          split at hok
          next hgt => simp at hok
          next hle =>
            simp only [Except.ok.injEq] at hok
            subst hok
            refine ⟨⟨(wrap32_bounds _).1, (wrap32_bounds _).2⟩, ?_⟩
            intro hs' ms' ss' h m s hsplit' hh hm hs3 hnn1 hnn2 hnn3 hbound
            rw [heq] at hsplit'
            simp only [List.cons.injEq, and_true] at hsplit'
            obtain ⟨rfl, rfl, rfl, -⟩ := hsplit'
            rw [hA1] at hh
            rw [hA2] at hm
            rw [hA3] at hs3
            simp only [Option.some.injEq] at hh hm hs3
            subst hh hm hs3
            have hw : wrap64 (wrap64 (wrap64 (hours * 3600) + wrap64 (minutes * 60)) + seconds) =
                hours * 3600 + minutes * 60 + seconds := by
              rw [w64_sum]
              refine wrap64_id _ (by simp only [maxI64] at hbound; omega)
                (by simp only [maxI64] at hbound; omega)
            rw [hw] at hle ⊢
            rw [wrap32_id _ (by omega) (by simp only [maxI32, not_lt] at hle; omega)]
            constructor
            · omega
            · rfl
  next heq => simp at hok

/-- C9 witness: "1:02:03" decodes to 3723, which is within the int32 range,
non-negative, and equal to 1·3600 + 2·60 + 3. -/
theorem decode_value_bounds_witness :
    ((-2147483648 : Int) ≤ 3723 ∧ (3723 : Int) ≤ 2147483647) ∧
    (0 ≤ (3723 : Int) ∧ (3723 : Int) = 1 * 3600 + 2 * 60 + 3) :=
  have h := decode_value_bounds "1:02:03".toList 3723 (by decide)
  ⟨h.1, h.2 "1".toList "02".toList "03".toList 1 2 3 (by decide) (by decide) (by decide)
    (by decide) (by norm_num) (by norm_num) (by norm_num)
    (by simp only [maxI64]; norm_num)⟩

/-- C10: `MarshalCSV` is total at the public interface: for every int32 time
value, negative ones included, it returns its formatted text together with a nil
error. -/
theorem marshal_total (dt : Int) (_hlo : -2147483648 ≤ dt) (_hhi : dt ≤ 2147483647) :
    (MarshalCSV dt).2 = none := rfl

/-- C10 witness: encoding the negative value −5 still reports no error. -/
theorem marshal_total_witness : (MarshalCSV (-5)).2 = none :=
  marshal_total (-5) (by norm_num) (by norm_num)

end Gtfs
